import Mathlib

/-!
Verification of the market-data core of the FinGuide repository
(`src/rag_fin_advisor/src/market_data/`): cache manager, data normalizer,
vendor adapters (Yahoo / NSE) and the orchestrating facade.

Shallow embedding conventions:
* Python dicts are association lists `List (String × Val)` (first match wins,
  assignment replaces the first binding in place, new keys append — Python
  insertion order semantics).
* Python floats are modelled as rationals `ℚ`; the claims under study involve
  only exact arithmetic (comparisons with 0, 20, 0.9), no rounding.
* `datetime.now()` is an explicit parameter (`now : ℕ`, seconds for cache
  instants; microseconds-of-day for market-hours checks).
* Network I/O is an explicit oracle parameter; functions additionally report
  how many data requests they issued.
* The md5 hex digest used for cache keys is modelled by the underlying
  pre-image string (the join of category, symbol and sorted kwargs); the
  digest is injective on the states considered here.
-/

namespace FinGuide

/-- JSON-like values, the payload universe of the Python code. -/
inductive Val : Type where
  | null : Val
  | bool : Bool → Val
  | num : ℚ → Val
  | str : String → Val
  | arr : List Val → Val
  | obj : List (String × Val) → Val
  deriving Repr

/-- Python dict modelled as an insertion-ordered association list. -/
abbrev Dict := List (String × Val)

/-- `d.get(k)` / `k in d`: first binding of `k`. -/
def dget : Dict → String → Option Val
  | [], _ => none
  | p :: rest, k => if p.1 = k then some p.2 else dget rest k

/-- `k in d`. -/
def hasKey (d : Dict) (k : String) : Bool := (dget d k).isSome

/-- `d.get(k, default)`. -/
def dgetD (d : Dict) (k : String) (v : Val) : Val := (dget d k).getD v

/-- `d[k] = v`: replace the binding in place, else append. -/
def dset : Dict → String → Val → Dict
  | [], k, v => [(k, v)]
  | p :: rest, k, v => if p.1 = k then (k, v) :: rest else p :: dset rest k v

/-- Python `v == 0` for payload values (`0`, `0.0` and `False` compare equal
to zero; strings, `None` and containers do not). -/
def pyEqZero : Val → Bool
  | .num q => q == 0
  | .bool b => !b
  | _ => false

/-- Python `v is None`. -/
def isNull : Val → Bool
  | .null => true
  | _ => false

/-- The overwrite condition of `DataNormalizer.merge_data_sources`:
`key not in merged or merged[key] is None or merged[key] == 0`. -/
def fillable : Option Val → Bool
  | none => true
  | some v => isNull v || pyEqZero v

/-- `"error" in payload`: the sentinel error marker used across the adapters. -/
def hasError (d : Dict) : Bool := hasKey d "error"

/-- The fill loop of `merge_data_sources`: start from a copy of `primary` and
walk `fallback.items()`. -/
def mergeFill (primary fallback : Dict) : Dict :=
  fallback.foldl (fun m kv => if fillable (dget m kv.1) then dset m kv.1 kv.2 else m) primary

/-- `payload.get("source", "unknown")`. -/
def sourceOf (d : Dict) : Val := dgetD d "source" (Val.str "unknown")

/-- `DataNormalizer.merge_data_sources` (data_normalizer.py:252-277).
Emptiness of the association list models Python falsiness of the argument. -/
def mergeDataSources (primary fallback : Dict) : Dict :=
  if primary.isEmpty || hasError primary then fallback
  else if fallback.isEmpty || hasError fallback then primary
  else
    let m := mergeFill primary fallback
    let m := dset m "primary_source" (sourceOf primary)
    let m := dset m "fallback_source" (sourceOf fallback)
    dset m "merged" (Val.bool true)

/-! ### Association-list lemmas -/

theorem dget_dset_self (d : Dict) (k : String) (v : Val) :
    dget (dset d k v) k = some v := by
  induction d with
  | nil => simp [dset, dget]
  | cons p rest ih =>
    by_cases h : p.1 = k
    · simp [dset, dget, h]
    · simp [dset, dget, h, ih]

theorem dget_dset_ne (d : Dict) (k k' : String) (v : Val) (h : k ≠ k') :
    dget (dset d k v) k' = dget d k' := by
  induction d with
  | nil => simp [dset, dget, h]
  | cons p rest ih =>
    by_cases hp : p.1 = k
    · simp [dset, dget, hp, h, Ne.symm h]
    · by_cases hp' : p.1 = k'
      · simp [dset, dget, hp, hp', Ne.symm h]
      · simp [dset, dget, hp, hp', ih]

theorem dget_eq_none_of_not_mem (d : Dict) (k : String)
    (h : k ∉ d.map Prod.fst) : dget d k = none := by
  induction d with
  | nil => rfl
  | cons p rest ih =>
    simp only [List.map_cons, List.mem_cons] at h
    push_neg at h
    simp [dget, Ne.symm h.1, ih h.2]

/-- Per-key characterization of the fill loop, for a fallback dict with
distinct keys: a fallback value lands exactly on the keys where the primary
value is absent, `None` or zero. -/
theorem mergeFill_dget (f : Dict) (hf : (f.map Prod.fst).Nodup) (p : Dict) (k : String) :
    dget (mergeFill p f) k =
      match dget f k with
      | some v => if fillable (dget p k) then some v else dget p k
      | none => dget p k := by
  induction f generalizing p with
  | nil => simp [mergeFill, dget]
  | cons kv rest ih =>
    simp only [List.map_cons, List.nodup_cons] at hf
    have hstep : mergeFill p (kv :: rest) =
        mergeFill (if fillable (dget p kv.1) then dset p kv.1 kv.2 else p) rest := by
      simp [mergeFill, List.foldl_cons]
    rw [hstep]
    by_cases hk : kv.1 = k
    · subst hk
      have hrest : dget rest kv.1 = none := dget_eq_none_of_not_mem rest kv.1 hf.1
      rw [ih hf.2]
      by_cases hfill : fillable (dget p kv.1)
      · simp [hfill, hrest, dget, dget_dset_self]
      · simp [hfill, hrest, dget]
    · have hpk : dget (if fillable (dget p kv.1) then dset p kv.1 kv.2 else p) k
          = dget p k := by
        by_cases hfill : fillable (dget p kv.1)
        · simp [hfill, dget_dset_ne _ _ _ _ hk]
        · simp [hfill]
      rw [ih hf.2, hpk]
      simp [dget, hk]

/-- C1: `merge(primary, fallback)` returns the fallback verbatim when the
primary is absent or errored (and vice versa); otherwise the result starts
from a copy of primary and a fallback value overwrites a key only when the
primary's value there is absent, `None` or exactly zero, the result carrying
`primary_source`, `fallback_source` and `merged = true`; on the concrete
example `{a:5, b:0, c:none}` / `{a:9, b:9, c:9, d:9}` the merge yields
`{a:5, b:9, c:9, d:9}` plus the provenance markers. -/
theorem C1_merge_fill_only_empty_rule :
    (∀ p f : Dict, (p.isEmpty || hasError p) = true → mergeDataSources p f = f) ∧
    (∀ p f : Dict, (p.isEmpty || hasError p) = false →
      (f.isEmpty || hasError f) = true → mergeDataSources p f = p) ∧
    (∀ p f : Dict, (p.isEmpty || hasError p) = false →
      (f.isEmpty || hasError f) = false → (f.map Prod.fst).Nodup →
      (∀ k : String, k ≠ "primary_source" → k ≠ "fallback_source" → k ≠ "merged" →
        dget (mergeDataSources p f) k =
          match dget f k with
          | some v => if fillable (dget p k) then some v else dget p k
          | none => dget p k) ∧
      dget (mergeDataSources p f) "primary_source" = some (sourceOf p) ∧
      dget (mergeDataSources p f) "fallback_source" = some (sourceOf f) ∧
      dget (mergeDataSources p f) "merged" = some (Val.bool true)) ∧
    mergeDataSources
        [("a", Val.num 5), ("b", Val.num 0), ("c", Val.null)]
        [("a", Val.num 9), ("b", Val.num 9), ("c", Val.num 9), ("d", Val.num 9)] =
      [("a", Val.num 5), ("b", Val.num 9), ("c", Val.num 9), ("d", Val.num 9),
       ("primary_source", Val.str "unknown"), ("fallback_source", Val.str "unknown"),
       ("merged", Val.bool true)] := by
  refine ⟨fun p f h => ?_, fun p f h1 h2 => ?_, fun p f h1 h2 hf => ?_, ?_⟩
  · simp [mergeDataSources, h]
  · simp [mergeDataSources, h1, h2]
  · have hm : mergeDataSources p f =
        dset (dset (dset (mergeFill p f) "primary_source" (sourceOf p))
          "fallback_source" (sourceOf f)) "merged" (Val.bool true) := by
      simp [mergeDataSources, h1, h2]
    refine ⟨fun k hk1 hk2 hk3 => ?_, ?_, ?_, ?_⟩
    · rw [hm, dget_dset_ne _ _ _ _ (Ne.symm hk3), dget_dset_ne _ _ _ _ (Ne.symm hk2),
        dget_dset_ne _ _ _ _ (Ne.symm hk1), mergeFill_dget f hf p k]
    · rw [hm, dget_dset_ne _ _ _ _ (by decide), dget_dset_ne _ _ _ _ (by decide),
        dget_dset_self]
    · rw [hm, dget_dset_ne _ _ _ _ (by decide), dget_dset_self]
    · rw [hm, dget_dset_self]
  · rfl

/-- Witness for C1: the fill-only-empty rule applied at a concrete primary
and fallback (the fallback's `volume` fills the primary's missing key). -/
theorem C1_merge_fill_only_empty_rule_witness :
    dget (mergeDataSources [("price", Val.num 5), ("source", Val.str "nse")]
      [("price", Val.num 9), ("volume", Val.num 7), ("source", Val.str "yahoo_finance")])
      "volume" = some (Val.num 7) := by
  have h := (C1_merge_fill_only_empty_rule.2.2.1
      [("price", Val.num 5), ("source", Val.str "nse")]
      [("price", Val.num 9), ("volume", Val.num 7), ("source", Val.str "yahoo_finance")]
      (by rfl) (by rfl) (by decide)).1 "volume" (by decide) (by decide) (by decide)
  simpa using h

/-! ### Symbols

Symbols are manipulated as lists of character codes, so that Python's
`strip()`, `upper()`, `endswith` and slicing are fully explicit. -/

/-- A Python string viewed as its list of character codes. -/
abbrev Sym := List Nat

/-- Character codes of a string literal. -/
def codes (s : String) : Sym := s.data.map Char.toNat

/-- The characters removed by Python `str.strip()` (space and `\t\n\v\f\r`). -/
def isSpaceCode (c : Nat) : Bool := c == 32 || (9 ≤ c && c ≤ 13)

/-- Python `str.upper()` on one (ASCII) character code. -/
def upperCode (c : Nat) : Nat := if 97 ≤ c && c ≤ 122 then c - 32 else c

/-- Python `s.strip()`. -/
def trimSym (s : Sym) : Sym := (s.dropWhile isSpaceCode).rdropWhile isSpaceCode

/-- Python `s.strip().upper()`, the first step of every normalization rule. -/
def stripUpper (s : Sym) : Sym := (trimSym s).map upperCode

/-- Python `s.endswith(suf)`. -/
def symEndsWith (s suf : Sym) : Bool := suf.isSuffixOf s

/-- Python `s.startswith('^')`. -/
def startsCaret : Sym → Bool
  | c :: _ => c == 94
  | [] => false

/-- Python `s[:-n]`. -/
def dropLastN (s : Sym) (n : Nat) : Sym := s.take (s.length - n)

def sufNS : Sym := codes ".NS"
def sufNSE : Sym := codes ".NSE"
def sufBO : Sym := codes ".BO"
def sufBSE : Sym := codes ".BSE"

/-- `YahooFinanceClient.indian_indices` (yahoo_client.py:24-34). -/
def yahooIndianIndices : List (Sym × Sym) :=
  [(codes "NIFTY", codes "^NSEI"), (codes "NIFTY50", codes "^NSEI"),
   (codes "SENSEX", codes "^BSESN"), (codes "BANKNIFTY", codes "^NSEBANK"),
   (codes "NIFTYIT", codes "^CNXIT"), (codes "NIFTYPHARMA", codes "^CNXPHARMA"),
   (codes "NIFTYAUTO", codes "^CNXAUTO"), (codes "NIFTYMETAL", codes "^CNXMETAL"),
   (codes "NIFTYREALTY", codes "^CNXREALTY")]

/-- `YahooFinanceClient.normalize_symbol` (yahoo_client.py:231-243);
`stripUpper s` plays the role of the reassigned local `symbol`. -/
def yahooNormalizeSymbol (s : Sym) : Sym :=
  match yahooIndianIndices.lookup (stripUpper s) with
  | some v => v
  | none =>
    if !symEndsWith (stripUpper s) sufNS && !startsCaret (stripUpper s) then
      stripUpper s ++ sufNS
    else stripUpper s

/-- `NSEClient.normalize_symbol` (nse_client.py:376-386). -/
def nseNormalizeSymbol (s : Sym) : Sym :=
  if symEndsWith (stripUpper s) sufNS then dropLastN (stripUpper s) 3
  else if symEndsWith (stripUpper s) sufNSE then dropLastN (stripUpper s) 4
  else stripUpper s

/-- `DataNormalizer.symbol_mappings` (data_normalizer.py:65-75). -/
def normalizerSymbolMappings : List (Sym × Sym) :=
  [(codes "NIFTY", codes "NIFTY"), (codes "NIFTY50", codes "NIFTY"),
   (codes "^NSEI", codes "NIFTY"), (codes "NIFTY 50", codes "NIFTY"),
   (codes "SENSEX", codes "SENSEX"), (codes "^BSESN", codes "SENSEX"),
   (codes "BANKNIFTY", codes "BANKNIFTY"), (codes "NIFTY BANK", codes "BANKNIFTY"),
   (codes "^NSEBANK", codes "BANKNIFTY")]

/-- `DataNormalizer._normalize_symbol` (data_normalizer.py:329-350). -/
def normalizerNormalizeSymbol (s : Sym) : Sym :=
  if s.isEmpty then []
  else
    match normalizerSymbolMappings.lookup (stripUpper s) with
    | some v => v
    | none =>
      if symEndsWith (stripUpper s) sufNS then dropLastN (stripUpper s) 3
      else if symEndsWith (stripUpper s) sufNSE then dropLastN (stripUpper s) 4
      else if symEndsWith (stripUpper s) sufBO then dropLastN (stripUpper s) 3
      else if symEndsWith (stripUpper s) sufBSE then dropLastN (stripUpper s) 4
      else stripUpper s

/-! ### Lemmas about `stripUpper` -/

theorem isSpaceCode_upperCode (c : Nat) : isSpaceCode (upperCode c) = isSpaceCode c := by
  unfold upperCode
  split
  · next h =>
    obtain ⟨h1, h2⟩ : 97 ≤ c ∧ c ≤ 122 := by simpa using h
    have e1 : isSpaceCode (c - 32) = false := by
      unfold isSpaceCode
      have g1 : (c - 32 == 32) = false := by rw [beq_eq_false_iff_ne]; omega
      have g2 : (decide (c - 32 ≤ 13)) = false := by rw [decide_eq_false_iff_not]; omega
      rw [g1, g2, Bool.and_false, Bool.or_false]
    have e2 : isSpaceCode c = false := by
      unfold isSpaceCode
      have g1 : (c == 32) = false := by rw [beq_eq_false_iff_ne]; omega
      have g2 : (decide (c ≤ 13)) = false := by rw [decide_eq_false_iff_not]; omega
      rw [g1, g2, Bool.and_false, Bool.or_false]
    rw [e1, e2]
  · rfl

theorem upperCode_idem (c : Nat) : upperCode (upperCode c) = upperCode c := by
  unfold upperCode
  split
  · next h =>
    obtain ⟨h1, h2⟩ : 97 ≤ c ∧ c ≤ 122 := by simpa using h
    have g : (decide (97 ≤ c - 32)) = false := by rw [decide_eq_false_iff_not]; omega
    simp [g]
  · rfl

theorem dropWhile_rdropWhile_self (p : Nat → Bool) (s : List Nat) :
    ((s.dropWhile p).rdropWhile p).dropWhile p = (s.dropWhile p).rdropWhile p := by
  rcases hrd : (s.dropWhile p).rdropWhile p with _ | ⟨a, l⟩
  · rfl
  · obtain ⟨t, ht⟩ := List.rdropWhile_prefix p (s.dropWhile p)
    rw [hrd] at ht
    have hq : (s.dropWhile p).head? = some a := by
      rw [← ht, List.cons_append, List.head?_cons]
    have ha : p a = false := by
      have h0 := List.head?_dropWhile_not p s
      rw [hq] at h0
      exact h0
    rw [List.dropWhile_cons, ha]
    simp

theorem trimSym_trimSym (s : Sym) : trimSym (trimSym s) = trimSym s := by
  unfold trimSym
  rw [dropWhile_rdropWhile_self, List.rdropWhile_idempotent]

theorem trimSym_map_upper (s : Sym) :
    trimSym (s.map upperCode) = (trimSym s).map upperCode := by
  have hcomp : (isSpaceCode ∘ upperCode) = isSpaceCode := by
    funext c; exact isSpaceCode_upperCode c
  unfold trimSym List.rdropWhile
  rw [List.dropWhile_map, hcomp, ← List.map_reverse, List.dropWhile_map, hcomp,
    ← List.map_reverse]

theorem stripUpper_idem (s : Sym) : stripUpper (stripUpper s) = stripUpper s := by
  unfold stripUpper
  rw [trimSym_map_upper, trimSym_trimSym, List.map_map]
  have : (upperCode ∘ upperCode) = upperCode := by
    funext c; exact upperCode_idem c
  rw [this]

theorem map_upperCode_stripUpper (s : Sym) :
    (stripUpper s).map upperCode = stripUpper s := by
  unfold stripUpper
  rw [List.map_map]
  have : (upperCode ∘ upperCode) = upperCode := by
    funext c; exact upperCode_idem c
  rw [this]

theorem trimSym_head_not_space (s : Sym) (a : Nat) (r : List Nat)
    (h : trimSym s = a :: r) : isSpaceCode a = false := by
  unfold trimSym at h
  obtain ⟨t, ht⟩ := List.rdropWhile_prefix isSpaceCode (s.dropWhile isSpaceCode)
  rw [h] at ht
  have hq : (s.dropWhile isSpaceCode).head? = some a := by
    rw [← ht, List.cons_append, List.head?_cons]
  have h0 := List.head?_dropWhile_not isSpaceCode s
  rw [hq] at h0
  exact h0

theorem stripUpper_head_not_space (s : Sym) (a : Nat) (r : List Nat)
    (h : stripUpper s = a :: r) : isSpaceCode a = false := by
  unfold stripUpper at h
  cases ht : trimSym s with
  | nil => rw [ht] at h; exact List.noConfusion h
  | cons b r' =>
    rw [ht, List.map_cons] at h
    obtain ⟨hab, _⟩ := List.cons.inj h
    rw [← hab, isSpaceCode_upperCode]
    exact trimSym_head_not_space s b r' ht

/-- `stripUpper` does not disturb a clean symbol followed by the `.NS` suffix. -/
theorem stripUpper_fix_appendNS (y : Sym)
    (hhead : ∀ a r, y = a :: r → isSpaceCode a = false)
    (hupper : y.map upperCode = y) :
    stripUpper (y ++ sufNS) = y ++ sufNS := by
  have hsuf : sufNS = [46, 78, 83] := by decide
  have hdrop : (y ++ sufNS).dropWhile isSpaceCode = y ++ sufNS := by
    cases hy : y with
    | nil => rw [hsuf]; decide
    | cons a r =>
      have ha := hhead a r hy
      rw [List.cons_append, List.dropWhile_cons, ha]
      simp
  have hrdrop : (y ++ sufNS).rdropWhile isSpaceCode = y ++ sufNS := by
    have hshape : y ++ sufNS = (y ++ [46, 78]) ++ [(83 : Nat)] := by
      rw [hsuf, List.append_assoc]
      rfl
    rw [hshape]
    exact List.rdropWhile_concat_neg isSpaceCode (y ++ [46, 78]) 83 (by decide)
  have hmapsuf : sufNS.map upperCode = sufNS := by decide
  unfold stripUpper trimSym
  rw [hdrop, hrdrop, List.map_append, hupper, hmapsuf]

theorem lookup_key_mem {β : Type} (a : Sym) (l : List (Sym × β)) (v : β)
    (h : List.lookup a l = some v) : a ∈ l.map Prod.fst := by
  induction l with
  | nil => simp [List.lookup] at h
  | cons p rest ih =>
    rcases p with ⟨k, b⟩
    cases he : a == k with
    | true =>
      have : a = k := by simpa using he
      simp [this]
    | false =>
      have h' : List.lookup a rest = some v := by
        rw [List.lookup] at h
        rw [he] at h
        exact h
      simp only [List.map_cons, List.mem_cons]
      exact Or.inr (ih h')

theorem lookup_val_mem {β : Type} (a : Sym) (l : List (Sym × β)) (v : β)
    (h : List.lookup a l = some v) : v ∈ l.map Prod.snd := by
  induction l with
  | nil => simp [List.lookup] at h
  | cons p rest ih =>
    rcases p with ⟨k, b⟩
    cases he : a == k with
    | true =>
      rw [List.lookup] at h
      rw [he] at h
      have : b = v := by simpa using h
      simp [this]
    | false =>
      have h' : List.lookup a rest = some v := by
        rw [List.lookup] at h
        rw [he] at h
        exact h
      simp only [List.map_cons, List.mem_cons]
      exact Or.inr (ih h')

theorem symEndsWith_append (y suf : Sym) : symEndsWith (y ++ suf) suf = true := by
  simp only [symEndsWith, List.isSuffixOf_iff_suffix]
  exact List.suffix_append y suf

theorem yahooLookup_appendNS_none (y : Sym) :
    yahooIndianIndices.lookup (y ++ sufNS) = none := by
  cases hl : yahooIndianIndices.lookup (y ++ sufNS) with
  | none => rfl
  | some w =>
    have hk := lookup_key_mem _ _ _ hl
    have hkeys : ∀ k ∈ yahooIndianIndices.map Prod.fst, symEndsWith k sufNS = false := by
      decide
    have hfalse := hkeys _ hk
    rw [symEndsWith_append] at hfalse
    exact absurd hfalse (by simp)

theorem yahooNormalizeSymbol_idem (s : Sym) :
    yahooNormalizeSymbol (yahooNormalizeSymbol s) = yahooNormalizeSymbol s := by
  cases hlk : yahooIndianIndices.lookup (stripUpper s) with
  | some v =>
    have h1 : yahooNormalizeSymbol s = v := by
      unfold yahooNormalizeSymbol
      rw [hlk]
    rw [h1]
    have hv : v ∈ yahooIndianIndices.map Prod.snd := lookup_val_mem _ _ _ hlk
    have hall : ∀ v ∈ yahooIndianIndices.map Prod.snd,
        yahooNormalizeSymbol v = v := by decide
    exact hall v hv
  | none =>
    by_cases hc : (!symEndsWith (stripUpper s) sufNS && !startsCaret (stripUpper s)) = true
    · have h1 : yahooNormalizeSymbol s = stripUpper s ++ sufNS := by
        unfold yahooNormalizeSymbol
        rw [hlk]
        simp only [hc, if_true]
      rw [h1]
      have hst : stripUpper (stripUpper s ++ sufNS) = stripUpper s ++ sufNS :=
        stripUpper_fix_appendNS (stripUpper s) (stripUpper_head_not_space s)
          (map_upperCode_stripUpper s)
      unfold yahooNormalizeSymbol
      rw [hst, yahooLookup_appendNS_none]
      simp [symEndsWith_append]
    · have h1 : yahooNormalizeSymbol s = stripUpper s := by
        unfold yahooNormalizeSymbol
        rw [hlk]
        simp only [hc, if_false]
        simp
      rw [h1]
      unfold yahooNormalizeSymbol
      rw [stripUpper_idem, hlk]
      simp only [hc, if_false]
      simp

/-- C7 counterexample: symbol normalization is not idempotent for every
adapter-level rule — the shared normalizer's alias routing maps the
suffix-bearing ticker `NIFTY50.NS` to `NIFTY50` and then, on a second pass,
to `NIFTY`; the NSE rule strips a doubled suffix twice. -/
theorem C7_symbol_idem_counterexample :
    normalizerNormalizeSymbol (normalizerNormalizeSymbol (codes "NIFTY50.NS")) ≠
      normalizerNormalizeSymbol (codes "NIFTY50.NS") ∧
    nseNormalizeSymbol (nseNormalizeSymbol (codes "TCS.NS.NS")) ≠
      nseNormalizeSymbol (codes "TCS.NS.NS") := by
  constructor
  · decide
  · decide

/-- C7 amended: the Yahoo adapter's `normalize_symbol` is idempotent on all
inputs; the NSE adapter's rule and the normalizer's alias routing are
idempotent only on inputs whose once-normalized form is clean — unchanged
by strip/upper, not ending in a recognized exchange suffix, and (for the
normalizer) either missing from the alias table or a fixed point of it. -/
theorem C7_symbol_idem_amended :
    (∀ s : Sym, yahooNormalizeSymbol (yahooNormalizeSymbol s) = yahooNormalizeSymbol s) ∧
    (∀ s : Sym, stripUpper (nseNormalizeSymbol s) = nseNormalizeSymbol s →
      symEndsWith (nseNormalizeSymbol s) sufNS = false →
      symEndsWith (nseNormalizeSymbol s) sufNSE = false →
      nseNormalizeSymbol (nseNormalizeSymbol s) = nseNormalizeSymbol s) ∧
    (∀ s : Sym, stripUpper (normalizerNormalizeSymbol s) = normalizerNormalizeSymbol s →
      (normalizerSymbolMappings.lookup (normalizerNormalizeSymbol s) = none ∨
        normalizerSymbolMappings.lookup (normalizerNormalizeSymbol s) =
          some (normalizerNormalizeSymbol s)) →
      symEndsWith (normalizerNormalizeSymbol s) sufNS = false →
      symEndsWith (normalizerNormalizeSymbol s) sufNSE = false →
      symEndsWith (normalizerNormalizeSymbol s) sufBO = false →
      symEndsWith (normalizerNormalizeSymbol s) sufBSE = false →
      normalizerNormalizeSymbol (normalizerNormalizeSymbol s) =
        normalizerNormalizeSymbol s) := by
  refine ⟨yahooNormalizeSymbol_idem, fun s h1 h2 h3 => ?_, fun s h1 h2 h3 h4 h5 h6 => ?_⟩
  · generalize ht : nseNormalizeSymbol s = t at h1 h2 h3 ⊢
    unfold nseNormalizeSymbol
    rw [h1, h2, h3]
    simp
  · generalize ht : normalizerNormalizeSymbol s = t at h1 h2 h3 h4 h5 h6 ⊢
    unfold normalizerNormalizeSymbol
    by_cases hemp : t.isEmpty
    · rw [if_pos hemp]
      exact (List.isEmpty_iff.mp hemp).symm
    · rw [if_neg hemp, h1]
      rcases h2 with h2 | h2
      · rw [h2, h3, h4, h5, h6]
        simp
      · rw [h2]

/-- Witness for C7 amended: the NSE rule and the normalizer routing applied
twice at the plain ticker `RELIANCE` agree with one application. -/
theorem C7_symbol_idem_amended_witness :
    nseNormalizeSymbol (nseNormalizeSymbol (codes "RELIANCE")) =
      nseNormalizeSymbol (codes "RELIANCE") ∧
    normalizerNormalizeSymbol (normalizerNormalizeSymbol (codes "RELIANCE")) =
      normalizerNormalizeSymbol (codes "RELIANCE") := by
  constructor
  · exact C7_symbol_idem_amended.2.1 (codes "RELIANCE") (by decide) (by decide) (by decide)
  · exact C7_symbol_idem_amended.2.2 (codes "RELIANCE") (by decide) (Or.inl (by decide))
      (by decide) (by decide) (by decide) (by decide)

/-! ### Market hours -/

/-- Microseconds-of-day of 09:15:00, the `now.replace(hour=9, minute=15, ...)`
instant. -/
def marketOpenMicros : Nat := (9 * 60 + 15) * 60 * 1000000

/-- Microseconds-of-day of 15:30:00. -/
def marketCloseMicros : Nat := (15 * 60 + 30) * 60 * 1000000

/-- `YahooFinanceClient.is_market_open` (yahoo_client.py:164-175): `weekday`
follows Python (`Monday = 0`), `tod` is the time of day in microseconds. -/
def yahooIsMarketOpen (weekday tod : Nat) : Bool :=
  if 5 ≤ weekday then false
  else marketOpenMicros ≤ tod && tod ≤ marketCloseMicros

/-- `NSEClient.is_market_open` (nse_client.py:388-399), textually the same
rule. -/
def nseIsMarketOpen (weekday tod : Nat) : Bool :=
  if 5 ≤ weekday then false
  else marketOpenMicros ≤ tod && tod ≤ marketCloseMicros

/-- C10: for both adapters the trading window is closed (inclusive) at both
ends — on a weekday `is_market_open` is true at exactly 09:15:00 and at
exactly 15:30:00, and it is false at every instant of Saturday and Sunday. -/
theorem C10_market_open_boundaries :
    (∀ wd : Nat, wd < 5 →
      yahooIsMarketOpen wd marketOpenMicros = true ∧
      yahooIsMarketOpen wd marketCloseMicros = true ∧
      nseIsMarketOpen wd marketOpenMicros = true ∧
      nseIsMarketOpen wd marketCloseMicros = true) ∧
    (∀ wd tod : Nat, wd = 5 ∨ wd = 6 →
      yahooIsMarketOpen wd tod = false ∧ nseIsMarketOpen wd tod = false) := by
  constructor
  · intro wd h
    have h5 : ¬ 5 ≤ wd := by omega
    refine ⟨?_, ?_, ?_, ?_⟩ <;>
      simp [yahooIsMarketOpen, nseIsMarketOpen, h5, marketOpenMicros, marketCloseMicros]
  · intro wd tod h
    have h5 : 5 ≤ wd := by omega
    constructor <;> simp [yahooIsMarketOpen, nseIsMarketOpen, h5]

/-- Witness for C10: Wednesday (2) at the opening bell is open, Sunday (6) at
noon is closed, for both adapters. -/
theorem C10_market_open_boundaries_witness :
    yahooIsMarketOpen 2 marketOpenMicros = true ∧
    nseIsMarketOpen 2 marketCloseMicros = true ∧
    yahooIsMarketOpen 6 (12 * 3600 * 1000000) = false ∧
    nseIsMarketOpen 6 (12 * 3600 * 1000000) = false := by
  refine ⟨(C10_market_open_boundaries.1 2 (by decide)).1,
    (C10_market_open_boundaries.1 2 (by decide)).2.2.2,
    (C10_market_open_boundaries.2 6 (12 * 3600 * 1000000) (Or.inr rfl)).1,
    (C10_market_open_boundaries.2 6 (12 * 3600 * 1000000) (Or.inr rfl)).2⟩

/-! ### Cache manager -/

/-- Generic association-list get (`d.get(k)` for non-payload maps). -/
def aget {α : Type} : List (String × α) → String → Option α
  | [], _ => none
  | p :: rest, k => if p.1 = k then some p.2 else aget rest k

/-- Generic association-list assignment. -/
def aset {α : Type} : List (String × α) → String → α → List (String × α)
  | [], k, v => [(k, v)]
  | p :: rest, k, v => if p.1 = k then (k, v) :: rest else p :: aset rest k v

/-- `del d[k]` / file unlink: drop the bindings of `k`. -/
def adel {α : Type} (l : List (String × α)) (k : String) : List (String × α) :=
  l.filter (fun p => p.1 ≠ k)

/-- The cache-entry dict written by `CacheManager.set` (cache_manager.py:121-127);
`cached_at` is an instant in seconds (the ISO string of the Python code). -/
structure CacheEntry where
  cached_at : Nat
  cache_type : String
  symbol : String
  kwargs : List (String × String)
  data : Val
  deriving Repr

/-- The two tiers of the cache: `self.memory_cache` and the on-disk files of
`self.cache_dir`, both keyed by the cache key. -/
structure CacheState where
  mem : List (String × CacheEntry)
  disk : List (String × CacheEntry)
  deriving Repr

/-- `CacheManager.ttl_settings` (cache_manager.py:27-36), seconds. -/
def ttlSettingsList : List (String × Nat) :=
  [("real_time", 60), ("indices", 30), ("historical_1d", 3600),
   ("historical_intraday", 300), ("company_info", 86400),
   ("gainers_losers", 300), ("fii_dii", 3600), ("default", 600)]

/-- `self.ttl_settings.get(cache_type, self.ttl_settings["default"])`
(cache_manager.py:59); the inner `getD 0` models the `KeyError` that cannot
arise since `"default"` is always present. -/
def ttlFor (cache_type : String) : Nat :=
  (aget ttlSettingsList cache_type).getD ((aget ttlSettingsList "default").getD 0)

/-- `CacheManager._is_cache_valid` (cache_manager.py:55-66): valid iff
`now < cached_at + ttl`. The ISO-parse-failure branch (→ invalid) cannot
arise in the model, where `cached_at` is already an instant. -/
def isCacheValid (e : CacheEntry) (cache_type : String) (now : Nat) : Bool :=
  decide (now < e.cached_at + ttlFor cache_type)

/-- Insertion sort of kwargs by key, modelling `sorted(kwargs.items())`
(keys are unique in a Python dict, so key order decides). -/
def insertKwarg (p : String × String) : List (String × String) → List (String × String)
  | [] => [p]
  | q :: rest => if p.1 ≤ q.1 then p :: q :: rest else q :: insertKwarg p rest

def sortKwargs (l : List (String × String)) : List (String × String) :=
  l.foldr insertKwarg []

/-- `CacheManager._get_cache_key` (cache_manager.py:40-49): the joined
pre-image `prefix|symbol|k=v|...`; the md5 hex digest of the Python code is
modelled by the pre-image itself. -/
def cacheKey (pre symbol : String) (kwargs : List (String × String)) : String :=
  String.intercalate "|"
    (pre :: symbol :: (sortKwargs kwargs).map (fun p => p.1 ++ "=" ++ p.2))

/-- The file-tier half of `CacheManager.get` (cache_manager.py:88-104):
a valid disk hit is promoted into the memory tier, an expired one is
unlinked. -/
def cacheGetDisk (cache_type key : String) (s : CacheState) (now : Nat) :
    Option Val × CacheState :=
  match aget s.disk key with
  | some e =>
    if isCacheValid e cache_type now then (some e.data, ⟨aset s.mem key e, s.disk⟩)
    else (none, ⟨s.mem, adel s.disk key⟩)
  | none => (none, s)

/-- `CacheManager.get` (cache_manager.py:68-108): memory tier first (an
expired memory entry is deleted and the disk tier is still consulted), then
the file tier. -/
def cacheGet (cache_type symbol : String) (kwargs : List (String × String))
    (s : CacheState) (now : Nat) : Option Val × CacheState :=
  match aget s.mem (cacheKey cache_type symbol kwargs) with
  | some e =>
    if isCacheValid e cache_type now then (some e.data, s)
    else cacheGetDisk cache_type (cacheKey cache_type symbol kwargs)
      ⟨adel s.mem (cacheKey cache_type symbol kwargs), s.disk⟩ now
  | none => cacheGetDisk cache_type (cacheKey cache_type symbol kwargs) s now

/-- `CacheManager.set` (cache_manager.py:110-142): write the fresh entry to
both tiers; returns `true` (the I/O-failure branch is not modelled). -/
def cacheSet (cache_type symbol : String) (data : Val)
    (kwargs : List (String × String)) (s : CacheState) (now : Nat) :
    Bool × CacheState :=
  (true,
   ⟨aset s.mem (cacheKey cache_type symbol kwargs) ⟨now, cache_type, symbol, kwargs, data⟩,
    aset s.disk (cacheKey cache_type symbol kwargs) ⟨now, cache_type, symbol, kwargs, data⟩⟩)

/-- The entry filter of `CacheManager.invalidate` (cache_manager.py:158-160). -/
def invalidateMatches (ct sym : Option String) (e : CacheEntry) : Bool :=
  (match ct with | none => true | some c => e.cache_type = c) &&
  (match sym with | none => true | some y => e.symbol = y)

/-- `CacheManager.invalidate` (cache_manager.py:144-172): no arguments clears
 everything; otherwise the keys to remove are collected from the MEMORY tier
only, then deleted from memory and unlinked from disk. -/
def cacheInvalidate (ct sym : Option String) (s : CacheState) : CacheState :=
  match ct, sym with
  | none, none => ⟨[], []⟩
  | _, _ =>
    ⟨s.mem.filter (fun kv => !invalidateMatches ct sym kv.2),
     s.disk.filter (fun kv =>
       !((s.mem.filter (fun kv2 => invalidateMatches ct sym kv2.2)).map Prod.fst).contains kv.1)⟩

/-! ### Association-list lemmas for the cache tiers -/

theorem aget_aset_self {α : Type} (l : List (String × α)) (k : String) (v : α) :
    aget (aset l k v) k = some v := by
  induction l with
  | nil => simp [aset, aget]
  | cons p rest ih =>
    by_cases h : p.1 = k
    · simp [aset, aget, h]
    · simp [aset, aget, h, ih]

theorem aget_adel_self {α : Type} (l : List (String × α)) (k : String) :
    aget (adel l k) k = none := by
  induction l with
  | nil => rfl
  | cons p rest ih =>
    by_cases h : p.1 = k
    · simpa [adel, h] using ih
    · simpa [adel, aget, h] using ih

theorem aget_none_of_not_mem {α : Type} (l : List (String × α)) (k : String)
    (h : k ∉ l.map Prod.fst) : aget l k = none := by
  induction l with
  | nil => rfl
  | cons p rest ih =>
    simp only [List.map_cons, List.mem_cons] at h
    push_neg at h
    simp [aget, Ne.symm h.1, ih h.2]

theorem aget_val_mem {α : Type} (l : List (String × α)) (k : String) (v : α)
    (h : aget l k = some v) : v ∈ l.map Prod.snd := by
  induction l with
  | nil => simp [aget] at h
  | cons p rest ih =>
    by_cases hp : p.1 = k
    · rw [aget, if_pos hp] at h
      have : p.2 = v := by simpa using h
      simp [this]
    · rw [aget, if_neg hp] at h
      simp only [List.map_cons, List.mem_cons]
      exact Or.inr (ih h)

/-- Reading through a filtered association list with distinct keys. -/
theorem aget_filter {α : Type} (q : String × α → Bool) (l : List (String × α))
    (hl : (l.map Prod.fst).Nodup) (k : String) :
    aget (l.filter q) k =
      match aget l k with
      | some v => if q (k, v) then some v else none
      | none => none := by
  induction l with
  | nil => rfl
  | cons p rest ih =>
    simp only [List.map_cons, List.nodup_cons] at hl
    by_cases hk : p.1 = k
    · have hnotin : k ∉ (rest.filter q).map Prod.fst := by
        intro hmem
        exact hl.1 (hk ▸ (List.map_subset Prod.fst (List.filter_sublist rest).subset) hmem)
      have hpk : p = (k, p.2) := by
        rw [← hk]
      by_cases hq : q p = true
      · rw [List.filter_cons, if_pos hq]
        rw [aget, if_pos hk, aget, if_pos hk]
        rw [hpk] at hq
        simp [hq]
      · rw [List.filter_cons, if_neg hq]
        rw [aget, if_pos hk, aget_none_of_not_mem _ _ hnotin]
        rw [hpk] at hq
        simp [Bool.eq_false_iff.mpr hq]
    · by_cases hq : q p = true
      · rw [List.filter_cons, if_pos hq, aget, if_neg hk, aget, if_neg hk]
        exact ih hl.2
      · rw [List.filter_cons, if_neg hq, aget, if_neg hk]
        exact ih hl.2

/-- Key membership of the filtered-by-entry sublist, with distinct keys. -/
theorem contains_filter_keys {α : Type} (m : α → Bool) (l : List (String × α))
    (hl : (l.map Prod.fst).Nodup) (k : String) :
    ((l.filter (fun kv => m kv.2)).map Prod.fst).contains k =
      match aget l k with
      | some v => m v
      | none => false := by
  induction l with
  | nil => rfl
  | cons p rest ih =>
    simp only [List.map_cons, List.nodup_cons] at hl
    by_cases hk : p.1 = k
    · have hnone : aget rest k = none :=
        aget_none_of_not_mem rest k (hk ▸ hl.1)
      by_cases hm : ((fun kv : String × α => m kv.2) p) = true
      · rw [List.filter_cons, if_pos hm, aget, if_pos hk]
        simp only [List.map_cons, List.contains_cons]
        simp [hk, hm]
      · rw [List.filter_cons, if_neg hm, aget, if_pos hk]
        rw [ih hl.2, hnone]
        simpa using Bool.eq_false_iff.mpr hm
    · by_cases hm : ((fun kv : String × α => m kv.2) p) = true
      · rw [List.filter_cons, if_pos hm, aget, if_neg hk]
        rw [← ih hl.2]
        simp only [List.map_cons, List.contains_cons]
        have : (k == p.1) = false := by
          rw [beq_eq_false_iff_ne]
          exact fun h => hk h.symm
        simp [this]
      · rw [List.filter_cons, if_neg hm, aget, if_neg hk]
        exact ih hl.2

/-- C3: a cache entry is valid iff the current time is strictly before
`cached_at + ttl(category)` (with the 600-second default for unrecognized
categories); a read that finds only expired entries returns `none` and
removes them from the tier(s) where they were found; a valid disk hit is
promoted into the memory tier before its payload is returned. -/
theorem C3_cache_ttl_lazy_eviction :
    (∀ (e : CacheEntry) (ct : String) (now : Nat),
      isCacheValid e ct now = true ↔ now < e.cached_at + ttlFor ct) ∧
    (∀ ct : String, ct ∉ ttlSettingsList.map Prod.fst → ttlFor ct = 600) ∧
    (∀ (ct symbol : String) (kwargs : List (String × String)) (s : CacheState)
        (now : Nat),
      (∀ e, aget s.mem (cacheKey ct symbol kwargs) = some e →
        isCacheValid e ct now = false) →
      (∀ e, aget s.disk (cacheKey ct symbol kwargs) = some e →
        isCacheValid e ct now = false) →
      (cacheGet ct symbol kwargs s now).1 = none ∧
      aget (cacheGet ct symbol kwargs s now).2.mem (cacheKey ct symbol kwargs) = none ∧
      aget (cacheGet ct symbol kwargs s now).2.disk (cacheKey ct symbol kwargs) = none) ∧
    (∀ (ct symbol : String) (kwargs : List (String × String)) (s : CacheState)
        (now : Nat) (e : CacheEntry),
      aget s.mem (cacheKey ct symbol kwargs) = none →
      aget s.disk (cacheKey ct symbol kwargs) = some e →
      isCacheValid e ct now = true →
      (cacheGet ct symbol kwargs s now).1 = some e.data ∧
      aget (cacheGet ct symbol kwargs s now).2.mem (cacheKey ct symbol kwargs) = some e) := by
  refine ⟨fun e ct now => by simp [isCacheValid], fun ct hct => ?_,
    fun ct symbol kwargs s now hmem hdisk => ?_, fun ct symbol kwargs s now e hm hd hv => ?_⟩
  · unfold ttlFor
    rw [aget_none_of_not_mem _ _ hct]
    rfl
  · rcases hm : aget s.mem (cacheKey ct symbol kwargs) with _ | e
    · rcases hd : aget s.disk (cacheKey ct symbol kwargs) with _ | e
      · simp [cacheGet, cacheGetDisk, hm, hd]
      · have hde := hdisk e hd
        simp [cacheGet, cacheGetDisk, hm, hd, hde, aget_adel_self]
    · have hme := hmem e hm
      rcases hd : aget s.disk (cacheKey ct symbol kwargs) with _ | e2
      · simp [cacheGet, cacheGetDisk, hm, hd, hme, aget_adel_self]
      · have hde := hdisk e2 hd
        simp [cacheGet, cacheGetDisk, hm, hd, hme, hde, aget_adel_self]
  · simp [cacheGet, cacheGetDisk, hm, hd, hv, aget_aset_self]

/-- Witness for C3: an expired entry sitting in both tiers is evicted by the
read and `none` is returned; a fresh disk-only entry is served and promoted. -/
theorem C3_cache_ttl_lazy_eviction_witness :
    (cacheGet "real_time" "TCS" []
      ⟨[(cacheKey "real_time" "TCS" [], ⟨0, "real_time", "TCS", [], Val.num 7⟩)],
       [(cacheKey "real_time" "TCS" [], ⟨0, "real_time", "TCS", [], Val.num 7⟩)]⟩
      1000).1 = none ∧
    (cacheGet "real_time" "TCS" []
      ⟨[], [(cacheKey "real_time" "TCS" [], ⟨990, "real_time", "TCS", [], Val.num 7⟩)]⟩
      1000).1 = some (Val.num 7) := by
  constructor
  · exact (C3_cache_ttl_lazy_eviction.2.2.1 "real_time" "TCS" []
      ⟨[(cacheKey "real_time" "TCS" [], ⟨0, "real_time", "TCS", [], Val.num 7⟩)],
       [(cacheKey "real_time" "TCS" [], ⟨0, "real_time", "TCS", [], Val.num 7⟩)]⟩
      1000
      (by
        intro e he
        simp [aget] at he
        subst he
        decide)
      (by
        intro e he
        simp [aget] at he
        subst he
        decide)).1
  · exact (C3_cache_ttl_lazy_eviction.2.2.2 "real_time" "TCS" []
      ⟨[], [(cacheKey "real_time" "TCS" [], ⟨990, "real_time", "TCS", [], Val.num 7⟩)]⟩
      1000 ⟨990, "real_time", "TCS", [], Val.num 7⟩
      rfl (by simp [aget]) (by decide)).1

/-- C6: the cache round-trip — `set(cat, sym, D)` followed, with the same
parameters and before the category TTL elapses, by `get(cat, sym)` returns
exactly `D`; every configured TTL is positive, so "immediately" qualifies. -/
theorem C6_cache_round_trip :
    (∀ ct : String, 0 < ttlFor ct) ∧
    (∀ (ct symbol : String) (kwargs : List (String × String)) (d : Val)
        (s : CacheState) (now now2 : Nat), now2 < now + ttlFor ct →
      (cacheGet ct symbol kwargs (cacheSet ct symbol d kwargs s now).2 now2).1 = some d) := by
  constructor
  · intro ct
    unfold ttlFor
    rcases h : aget ttlSettingsList ct with _ | v
    · decide
    · have hv : v ∈ ttlSettingsList.map Prod.snd := aget_val_mem _ _ _ h
      have hall : ∀ v ∈ ttlSettingsList.map Prod.snd, 0 < v := by decide
      simpa using hall v hv
  · intro ct symbol kwargs d s now now2 h
    unfold cacheSet cacheGet
    rw [aget_aset_self]
    simp [isCacheValid, h]

/-- Witness for C6: a `real_time` entry set at instant 0 is read back intact
at instant 0. -/
theorem C6_cache_round_trip_witness :
    (cacheGet "real_time" "TCS" []
      (cacheSet "real_time" "TCS" (Val.num 42) [] ⟨[], []⟩ 0).2 0).1 = some (Val.num 42) :=
  C6_cache_round_trip.2 "real_time" "TCS" [] (Val.num 42) ⟨[], []⟩ 0 0 (by decide)

/-- C9 counterexample: filtered invalidation misses disk-only entries — with
an empty memory tier, `invalidate(cache_type="real_time")` leaves a matching
`real_time` disk entry in place, contradicting removal "from both tiers". -/
theorem C9_invalidate_counterexample :
    aget (cacheInvalidate (some "real_time") none
        ⟨[], [("k1", ⟨0, "real_time", "TCS", [], Val.num 7⟩)]⟩).disk "k1" =
      some ⟨0, "real_time", "TCS", [], Val.num 7⟩ := by
  rfl

/-- C9 amended: no-argument invalidation clears both tiers completely; and
filtered invalidation removes exactly the matching entries found in the
MEMORY tier, unlinking their disk files — a memory entry survives iff it does
not match, while a disk entry is removed iff its key carries a matching entry
in the memory tier (disk-only entries are untouched). -/
theorem C9_invalidate_amended :
    (∀ s : CacheState, cacheInvalidate none none s = ⟨[], []⟩) ∧
    (∀ (ct sym : Option String) (s : CacheState) (k : String),
      ¬(ct = none ∧ sym = none) →
      (s.mem.map Prod.fst).Nodup → (s.disk.map Prod.fst).Nodup →
      aget (cacheInvalidate ct sym s).mem k =
        (match aget s.mem k with
         | some e => if invalidateMatches ct sym e then none else some e
         | none => none) ∧
      aget (cacheInvalidate ct sym s).disk k =
        (match aget s.mem k with
         | some e => if invalidateMatches ct sym e then none else aget s.disk k
         | none => aget s.disk k)) := by
  constructor
  · intro s
    rfl
  · intro ct sym s k hne hm hdk
    have hred : cacheInvalidate ct sym s =
        ⟨s.mem.filter (fun kv => !invalidateMatches ct sym kv.2),
         s.disk.filter (fun kv =>
           !((s.mem.filter (fun kv2 => invalidateMatches ct sym kv2.2)).map
             Prod.fst).contains kv.1)⟩ := by
      rcases ct with _ | c
      · rcases sym with _ | y
        · exact absurd ⟨rfl, rfl⟩ hne
        · rfl
      · rfl
    constructor
    · rw [hred]
      rw [aget_filter _ _ hm k]
      rcases hg : aget s.mem k with _ | e
      · rfl
      · by_cases hmt : invalidateMatches ct sym e
        · simp [hmt]
        · simp [Bool.eq_false_iff.mpr hmt]
    · rw [hred]
      rw [aget_filter _ _ hdk k]
      rcases hg : aget s.mem k with _ | e
      · have hck2 : ((s.mem.filter (fun kv => invalidateMatches ct sym kv.2)).map
            Prod.fst).contains k = false := by
          rw [contains_filter_keys (invalidateMatches ct sym) s.mem hm k, hg]
        rcases hd2 : aget s.disk k with _ | v
        · simp [hd2]
        · dsimp only
          rw [hck2]
          simp
      · have hck2 : ((s.mem.filter (fun kv => invalidateMatches ct sym kv.2)).map
            Prod.fst).contains k = invalidateMatches ct sym e := by
          rw [contains_filter_keys (invalidateMatches ct sym) s.mem hm k, hg]
        by_cases hmt : invalidateMatches ct sym e = true
        · rcases hd2 : aget s.disk k with _ | v
          · simp [hd2, hmt]
          · dsimp only
            rw [hck2, hmt]
            simp
        · have hmf : invalidateMatches ct sym e = false := Bool.eq_false_iff.mpr hmt
          rcases hd2 : aget s.disk k with _ | v
          · simp [hd2, hmf]
          · dsimp only
            rw [hck2, hmf]
            simp

/-- Witness for C9 amended: invalidating `real_time` removes the matching
memory entry and its disk file, and leaves the disk-only entry under another
key untouched. -/
theorem C9_invalidate_amended_witness :
    aget (cacheInvalidate (some "real_time") none
        ⟨[("k1", ⟨0, "real_time", "TCS", [], Val.num 7⟩)],
         [("k1", ⟨0, "real_time", "TCS", [], Val.num 7⟩),
          ("k2", ⟨0, "indices", "ALL", [], Val.num 8⟩)]⟩).disk "k2" =
      some ⟨0, "indices", "ALL", [], Val.num 8⟩ := by
  have h := (C9_invalidate_amended.2 (some "real_time") none
      ⟨[("k1", ⟨0, "real_time", "TCS", [], Val.num 7⟩)],
       [("k1", ⟨0, "real_time", "TCS", [], Val.num 7⟩),
        ("k2", ⟨0, "indices", "ALL", [], Val.num 8⟩)]⟩ "k2"
      (by simp) (by decide) (by decide)).2
  rw [h]
  rfl

/-! ### Safe numeric coercion and the normalizer's data model -/

/-- One decimal digit of a numeric string. -/
def digitVal (c : Char) : Option Nat :=
  if c.isDigit then some (c.toNat - 48) else none

/-- Value and length of a digit run (`none` once a non-digit appears). -/
def parseDigits (l : List Char) : Option (Nat × Nat) :=
  l.foldl (fun acc c =>
    match acc, digitVal c with
    | some (v, n), some d => some (v * 10 + d, n + 1)
    | _, _ => none) (some (0, 0))

/-- The fragment of Python `float(str)` exercised by these payloads: optional
sign, decimal digits, optional fractional digits, at least one digit overall.
Exponents, `inf`/`nan` and surrounding whitespace are not modelled; no
theorem below depends on them. -/
def strToRat? (s : String) : Option ℚ :=
  match s.data with
  | [] => none
  | l =>
    let neg : Bool := match l with | '-' :: _ => true | _ => false
    let body := match l with | '-' :: r => r | '+' :: r => r | r => r
    let ip := body.takeWhile (fun c => c != '.')
    let rest := body.dropWhile (fun c => c != '.')
    match rest with
    | [] =>
      match parseDigits ip with
      | some (v, n) => if n = 0 then none else some (if neg then -(v : ℚ) else (v : ℚ))
      | none => none
    | _ :: fp =>
      match parseDigits ip, parseDigits fp with
      | some (iv, inn), some (fv, fn) =>
        if inn + fn = 0 then none
        else some (if neg then -((iv : ℚ) + (fv : ℚ) / ((10 : ℚ) ^ fn))
                   else (iv : ℚ) + (fv : ℚ) / ((10 : ℚ) ^ fn))
      | _, _ => none

/-- Python `float(v)` on a payload value; `none` models a raised
`ValueError`/`TypeError`. -/
def pyFloat? : Val → Option ℚ
  | .num q => some q
  | .bool b => some (if b then 1 else 0)
  | .str s => strToRat? s
  | .null => none
  | .arr _ => none
  | .obj _ => none

/-- `DataNormalizer._safe_float` (data_normalizer.py:352-359). -/
def safeFloat (v : Val) : ℚ :=
  if isNull v then 0 else (pyFloat? v).getD 0

/-- Truncation toward zero, Python `int(...)` on a float. -/
def ratTrunc (q : ℚ) : Int := if 0 ≤ q then ⌊q⌋ else -⌊-q⌋

/-- `DataNormalizer._safe_int` (data_normalizer.py:361-368): `int(float(v))`. -/
def safeInt (v : Val) : Int :=
  if isNull v then 0
  else
    match pyFloat? v with
    | some q => ratTrunc q
    | none => 0

/-- Python truthiness of a payload value (`if cached_data:`,
`if point.get("timestamp")`, ...). -/
def valTruthy : Val → Bool
  | .null => false
  | .bool b => b
  | .num q => !(q == 0)
  | .str s => !s.isEmpty
  | .arr l => !l.isEmpty
  | .obj l => !l.isEmpty

/-- The `NormalizedPrice` dataclass (data_normalizer.py:20-37); `open` is a
Lean keyword, hence `open_`. -/
structure NormalizedPrice where
  symbol : Sym
  price : ℚ
  change : ℚ
  change_percent : ℚ
  open_ : ℚ
  high : ℚ
  low : ℚ
  volume : Int
  timestamp : Val
  source : Val
  market_state : Val
  previous_close : Option ℚ := none
  market_cap : Option ℚ := none
  pe_ratio : Option ℚ := none
  additional_data : Option Dict := none
  deriving Repr

/-- The recognized keys excluded from `additional_data`
(data_normalizer.py:104-111). -/
def priceKnownKeys : List String :=
  ["symbol", "price", "change", "change_percent", "open",
   "high", "low", "volume", "timestamp", "market_state",
   "previous_close", "market_cap", "pe_ratio", "source"]

/-- `DataNormalizer._normalize_symbol` applied to the raw `"symbol"` VALUE
(data_normalizer.py:329-334): the `if not symbol: return ""` truthiness
guard runs BEFORE `.strip()`, so every falsy value — `None`, `0`, `False`,
`""`, `[]`, `{}` — yields the empty symbol; a truthy string goes through the
alias/suffix rules; only a truthy non-string reaches `.strip()` and raises
`AttributeError`, which the enclosing handler turns into `None`. -/
def normalizeSymbolVal (v : Val) : Option Sym :=
  if !valTruthy v then some []
  else
    match v with
    | .str sy => some (normalizerNormalizeSymbol (codes sy))
    | _ => none

/-- `DataNormalizer.normalize_price_data` (data_normalizer.py:77-133).
`nowIso` stands for `datetime.now().isoformat()`. The symbol value is routed
through `normalizeSymbolVal`: a truthy non-string raises inside
`_normalize_symbol`, caught to `None`; every other payload is accepted.
Required fields default to `0` before coercion (`raw.get("price", 0)`),
optional fields default to `None` (`raw.get("previous_close")`) and are then
passed through the SAME `_safe_float`. -/
def normalizePriceData (raw : Dict) (nowIso : String) : Option NormalizedPrice :=
  if hasError raw then none
  else
    match normalizeSymbolVal (dgetD raw "symbol" (Val.str "")) with
    | some sym =>
      some
        { symbol := sym
          price := safeFloat (dgetD raw "price" (Val.num 0))
          change := safeFloat (dgetD raw "change" (Val.num 0))
          change_percent := safeFloat (dgetD raw "change_percent" (Val.num 0))
          open_ := safeFloat (dgetD raw "open" (Val.num 0))
          high := safeFloat (dgetD raw "high" (Val.num 0))
          low := safeFloat (dgetD raw "low" (Val.num 0))
          volume := safeInt (dgetD raw "volume" (Val.num 0))
          timestamp := dgetD raw "timestamp" (Val.str nowIso)
          source := dgetD raw "source" (Val.str "unknown")
          market_state := dgetD raw "market_state" (Val.str "unknown")
          previous_close := some (safeFloat (dgetD raw "previous_close" Val.null))
          market_cap := some (safeFloat (dgetD raw "market_cap" Val.null))
          pe_ratio := some (safeFloat (dgetD raw "pe_ratio" Val.null))
          additional_data :=
            if (raw.filter (fun kv => !priceKnownKeys.contains kv.1)).isEmpty then none
            else some (raw.filter (fun kv => !priceKnownKeys.contains kv.1)) }
    | none => none

/-- The `NormalizedHistoricalData` dataclass (data_normalizer.py:39-48);
`count` is the record's own count field (defaulted to `len(data)` by
`normalize_historical_data` but carried separately), `data` the list of
per-point dicts. -/
structure NormalizedHistoricalData where
  symbol : Sym
  period : Val
  interval : Val
  data : List Dict
  count : Int
  source : Val
  timestamp : Val
  deriving Repr

/-- The `isinstance` dispatch of `validate_data_quality`: a price record, a
historical series, or any other payload (which collects no deductions). -/
inductive QualityInput : Type where
  | price (p : NormalizedPrice)
  | hist (h : NormalizedHistoricalData)
  | other
  deriving Repr

/-- The dict returned by `validate_data_quality`. -/
structure QualityReport where
  quality_score : Int
  issues : List String
  is_valid : Bool
  deriving Repr

/-- `if point.get("timestamp")`: the point carries a truthy timestamp. -/
def pointTimestampTruthy (pt : Dict) : Bool :=
  match dget pt "timestamp" with
  | some v => valTruthy v
  | none => false

/-- `DataNormalizer.validate_data_quality` (data_normalizer.py:279-327).
The returned score is clamped at 0 (`max(0, quality_score)`) while
`is_valid` reads the unclamped accumulator, exactly as in the source. -/
def validateDataQuality : QualityInput → QualityReport
  | .price p =>
    let sc1 : Int := if p.price ≤ 0 then 100 - 30 else 100
    let is1 : List String := if p.price ≤ 0 then ["Invalid price"] else []
    let sc2 : Int := if p.volume ≤ 0 then sc1 - 10 else sc1
    let is2 : List String := if p.volume ≤ 0 then is1 ++ ["Zero volume"] else is1
    let sc3 : Int := if valTruthy p.timestamp then sc2 else sc2 - 20
    let is3 : List String :=
      if valTruthy p.timestamp then is2 else is2 ++ ["Missing timestamp"]
    let sc4 : Int := if 20 < |p.change_percent| then sc3 - 5 else sc3
    let is4 : List String :=
      if 20 < |p.change_percent| then is3 ++ ["High volatility"] else is3
    ⟨max 0 sc4, is4, decide (50 ≤ sc4)⟩
  | .hist h =>
    let sc1 : Int := if h.count = 0 then 0 else if h.count < 10 then 100 - 20 else 100
    let is1 : List String :=
      if h.count = 0 then ["No historical data"]
      else if h.count < 10 then ["Insufficient data points"] else []
    let nts : Nat := (h.data.filter pointTimestampTruthy).length
    let sc2 : Int := if (nts : ℚ) < (h.count : ℚ) * (9 / 10) then sc1 - 15 else sc1
    let is2 : List String :=
      if (nts : ℚ) < (h.count : ℚ) * (9 / 10) then is1 ++ ["Missing timestamps"] else is1
    ⟨max 0 sc2, is2, decide (50 ≤ sc2)⟩
  | .other => ⟨100, [], true⟩

/-- C4: the fixed deduction table — for a price record: non-positive price
−30, non-positive volume −10, missing timestamp −20, |change_percent| > 20
−5; for a series: zero count forces the score to 0 (the timestamp-gap check
`len < 0 * 0.9` can never fire then), count < 10 deducts 20, and fewer than
90% of points with a truthy timestamp deducts another 15; `is_valid` holds
exactly when the returned score is at least 50. The two concrete cases:
price 0 / volume 0 with a timestamp scores 60 and is valid; an empty series
scores 0 and is invalid. -/
theorem C4_quality_scoring :
    (∀ p : NormalizedPrice,
      (validateDataQuality (.price p)).quality_score =
        max 0 (100 - (if p.price ≤ 0 then 30 else 0)
          - (if p.volume ≤ 0 then 10 else 0)
          - (if valTruthy p.timestamp then 0 else 20)
          - (if 20 < |p.change_percent| then 5 else 0)) ∧
      ((validateDataQuality (.price p)).is_valid = true ↔
        50 ≤ (validateDataQuality (.price p)).quality_score)) ∧
    (∀ h : NormalizedHistoricalData,
      (validateDataQuality (.hist h)).quality_score =
        (if h.count = 0 then 0
         else max 0 ((if h.count < 10 then 80 else 100)
           - (if (((h.data.filter pointTimestampTruthy).length : ℚ) <
                (h.count : ℚ) * (9 / 10)) then 15 else 0))) ∧
      ((validateDataQuality (.hist h)).is_valid = true ↔
        50 ≤ (validateDataQuality (.hist h)).quality_score)) ∧
    (validateDataQuality (.price
      { symbol := codes "TCS", price := 0, change := 0, change_percent := 0,
        open_ := 0, high := 0, low := 0, volume := 0,
        timestamp := Val.str "2024-01-01T00:00:00", source := Val.str "nse",
        market_state := Val.str "open" })).quality_score = 60 ∧
    (validateDataQuality (.price
      { symbol := codes "TCS", price := 0, change := 0, change_percent := 0,
        open_ := 0, high := 0, low := 0, volume := 0,
        timestamp := Val.str "2024-01-01T00:00:00", source := Val.str "nse",
        market_state := Val.str "open" })).is_valid = true ∧
    (validateDataQuality (.hist
      { symbol := codes "TCS", period := Val.str "1y", interval := Val.str "1d",
        data := [], count := 0, source := Val.str "nse",
        timestamp := Val.str "t" })).quality_score = 0 ∧
    (validateDataQuality (.hist
      { symbol := codes "TCS", period := Val.str "1y", interval := Val.str "1d",
        data := [], count := 0, source := Val.str "nse",
        timestamp := Val.str "t" })).is_valid = false := by
  refine ⟨fun p => ?_, fun h => ?_, ?_, ?_, ?_, ?_⟩
  · simp only [validateDataQuality]
    constructor
    · split_ifs <;> norm_num
    · split_ifs <;> norm_num
  · simp only [validateDataQuality]
    constructor
    · split_ifs <;> norm_num
    · split_ifs <;> norm_num
  · norm_num [validateDataQuality, valTruthy,
      show ("2024-01-01T00:00:00".isEmpty) = false from rfl]
  · norm_num [validateDataQuality, valTruthy,
      show ("2024-01-01T00:00:00".isEmpty) = false from rfl]
  · norm_num [validateDataQuality, valTruthy]
  · norm_num [validateDataQuality, valTruthy]

/-! ### Orchestrator: real-time price -/

/-- `IndianMarketDataAPI.source_priority["real_time"]`
(data_sources.py:33-38). -/
def sourcePriorityRealTime : List String := ["nse", "yahoo"]

/-- The source-selection loop of `get_real_time_price`
(data_sources.py:58-79), one step per priority entry. `responses` is the
oracle giving each adapter's payload (an exception inside an adapter is
already represented as an error payload); the accumulated list records which
adapters were actually called. A truthy, error-free payload is stored —
into `primary` if that is still empty, else into `fallback` — and the loop
then BREAKS (the `break` sits outside the inner if/else). -/
def realTimeLoopGo (responses : String → Dict) :
    List String → Option Dict → Option Dict → List String →
    Option Dict × Option Dict × List String
  | [], p, f, log => (p, f, log)
  | src :: rest, p, f, log =>
    if src = "nse" ∨ src = "yahoo" then
      if !(responses src).isEmpty && !hasError (responses src) then
        match p with
        | none => (some (responses src), f, log ++ [src])
        | some _ => (p, some (responses src), log ++ [src])
      else realTimeLoopGo responses rest p f (log ++ [src])
    else realTimeLoopGo responses rest p f log

def realTimeLoop (responses : String → Dict) :
    Option Dict × Option Dict × List String :=
  realTimeLoopGo responses sourcePriorityRealTime none none []

/-- The fetch-merge-cache-normalize tail of `get_real_time_price`
(data_sources.py:81-93). -/
def realTimeFetch (responses : String → Dict) (symbol : String)
    (s : CacheState) (now : Nat) (nowIso : String) :
    Option NormalizedPrice × CacheState :=
  match (realTimeLoop responses).1 with
  | some pd =>
    (normalizePriceData
        (match (realTimeLoop responses).2.1 with
         | some fd => mergeDataSources pd fd
         | none => pd) nowIso,
     (cacheSet "real_time" symbol
        (Val.obj
          (match (realTimeLoop responses).2.1 with
           | some fd => mergeDataSources pd fd
           | none => pd)) [] s now).2)
  | none => (none, s)

/-- `IndianMarketDataAPI.get_real_time_price` (data_sources.py:40-97) with
caching enabled: a truthy cache hit is normalized and returned (a non-dict
cached value would make normalization raise, caught to `None`); otherwise
the priority loop runs and the chosen payload is cached and normalized. -/
def getRealTimePrice (responses : String → Dict) (symbol : String)
    (s : CacheState) (now : Nat) (nowIso : String) :
    Option NormalizedPrice × CacheState :=
  match (cacheGet "real_time" symbol [] s now).1 with
  | some v =>
    if valTruthy v then
      ((match v with
        | .obj d => normalizePriceData d nowIso
        | _ => none), (cacheGet "real_time" symbol [] s now).2)
    else realTimeFetch responses symbol (cacheGet "real_time" symbol [] s now).2 now nowIso
  | none => realTimeFetch responses symbol (cacheGet "real_time" symbol [] s now).2 now nowIso

/-- C2 counterexample: with BOTH adapters returning error-free payloads, the
loop still stops after the first success — the second source is never
consulted (only `"nse"` is called) and the fallback slot stays empty, so no
merge happens, contrary to "if a second source also succeeds it becomes
fallback". -/
theorem C2_priority_loop_counterexample :
    (realTimeLoop (fun src =>
      if src = "nse" then [("price", Val.num 10), ("source", Val.str "nse")]
      else [("price", Val.num 20), ("source", Val.str "yahoo_finance")])).2.1 = none ∧
    (realTimeLoop (fun src =>
      if src = "nse" then [("price", Val.num 10), ("source", Val.str "nse")]
      else [("price", Val.num 20), ("source", Val.str "yahoo_finance")])).2.2 = ["nse"] ∧
    hasError ((fun (src : String) =>
      if src = "nse" then [("price", Val.num 10), ("source", Val.str "nse")]
      else [("price", Val.num 20), ("source", Val.str "yahoo_finance")]) "yahoo") = false := by
  refine ⟨rfl, rfl, rfl⟩

/-- C2 amended: on a cache miss the adapters are tried strictly in the
configured priority order (`nse` then `yahoo`) and the FIRST truthy
error-free payload becomes primary, after which the iteration stops
immediately: the fallback slot is never populated, at most one source
succeeds per request (the second is consulted only when the first fails),
and the cached and returned payload is the primary payload itself, unmerged. -/
theorem C2_priority_loop_amended :
    (∀ responses : String → Dict, (realTimeLoop responses).2.1 = none) ∧
    (∀ responses : String → Dict,
      (!(responses "nse").isEmpty && !hasError (responses "nse")) = true →
      realTimeLoop responses = (some (responses "nse"), none, ["nse"])) ∧
    (∀ responses : String → Dict,
      (!(responses "nse").isEmpty && !hasError (responses "nse")) = false →
      (!(responses "yahoo").isEmpty && !hasError (responses "yahoo")) = true →
      realTimeLoop responses = (some (responses "yahoo"), none, ["nse", "yahoo"])) ∧
    (∀ responses : String → Dict,
      (!(responses "nse").isEmpty && !hasError (responses "nse")) = false →
      (!(responses "yahoo").isEmpty && !hasError (responses "yahoo")) = false →
      realTimeLoop responses = (none, none, ["nse", "yahoo"])) ∧
    (∀ (responses : String → Dict) (symbol : String) (s : CacheState)
        (now : Nat) (nowIso : String),
      (cacheGet "real_time" symbol [] s now).1 = none →
      (!(responses "nse").isEmpty && !hasError (responses "nse")) = true →
      getRealTimePrice responses symbol s now nowIso =
        (normalizePriceData (responses "nse") nowIso,
         (cacheSet "real_time" symbol (Val.obj (responses "nse")) []
           (cacheGet "real_time" symbol [] s now).2 now).2)) := by
  have hfirst : ∀ responses : String → Dict,
      (!(responses "nse").isEmpty && !hasError (responses "nse")) = true →
      realTimeLoop responses = (some (responses "nse"), none, ["nse"]) := by
    intro responses h
    simp [realTimeLoop, sourcePriorityRealTime, realTimeLoopGo, h]
  have hnone : ∀ responses : String → Dict, (realTimeLoop responses).2.1 = none := by
    intro responses
    by_cases h1 : (!(responses "nse").isEmpty && !hasError (responses "nse")) = true
    · rw [hfirst responses h1]
    · by_cases h2 : (!(responses "yahoo").isEmpty && !hasError (responses "yahoo")) = true
      · simp [realTimeLoop, sourcePriorityRealTime, realTimeLoopGo,
          Bool.eq_false_iff.mpr h1, h2]
      · simp [realTimeLoop, sourcePriorityRealTime, realTimeLoopGo,
          Bool.eq_false_iff.mpr h1, Bool.eq_false_iff.mpr h2]
  refine ⟨hnone, hfirst, ?_, ?_, ?_⟩
  · intro responses h1 h2
    simp [realTimeLoop, sourcePriorityRealTime, realTimeLoopGo, h1, h2]
  · intro responses h1 h2
    simp [realTimeLoop, sourcePriorityRealTime, realTimeLoopGo, h1, h2]
  · intro responses symbol s now nowIso hmiss h1
    unfold getRealTimePrice
    rw [hmiss]
    unfold realTimeFetch
    rw [hfirst responses h1]

/-- Witness for C2 amended: with an empty cache and a successful `nse`
response, the request returns the normalization of the nse payload and
caches it verbatim. -/
theorem C2_priority_loop_amended_witness :
    getRealTimePrice (fun _ => [("symbol", Val.str "RELIANCE"),
        ("price", Val.num 10), ("source", Val.str "nse")]) "RELIANCE"
      ⟨[], []⟩ 0 "t0" =
      (normalizePriceData [("symbol", Val.str "RELIANCE"),
          ("price", Val.num 10), ("source", Val.str "nse")] "t0",
       (cacheSet "real_time" "RELIANCE"
          (Val.obj [("symbol", Val.str "RELIANCE"),
            ("price", Val.num 10), ("source", Val.str "nse")]) []
          (cacheGet "real_time" "RELIANCE" [] ⟨[], []⟩ 0).2 0).2) :=
  C2_priority_loop_amended.2.2.2.2 (fun _ => [("symbol", Val.str "RELIANCE"),
      ("price", Val.num 10), ("source", Val.str "nse")]) "RELIANCE"
    ⟨[], []⟩ 0 "t0" rfl rfl

/-! ### Historical data: allow-list validation and the two adapters -/

/-- `BaseMarketDataClient.validate_period`'s allow-list
(base_client.py:60-63). -/
def validPeriods : List String :=
  ["1d", "5d", "1mo", "3mo", "6mo", "1y", "2y", "5y", "10y", "ytd", "max"]

def validatePeriod (period : String) : Bool := validPeriods.contains period

/-- `BaseMarketDataClient.validate_interval`'s allow-list
(base_client.py:65-68). -/
def validIntervals : List String :=
  ["1m", "2m", "5m", "15m", "30m", "60m", "90m", "1h", "1d", "5d", "1wk", "1mo", "3mo"]

def validateInterval (interval : String) : Bool := validIntervals.contains interval

/-- Render a code-list symbol back to a string (payload fields hold
strings). -/
def symStr (s : Sym) : String := String.mk (s.map Char.ofNat)

/-- The error payload `{"error": str(e), "symbol": symbol}` of the adapters'
exception handlers. -/
def adapterErrorPayload (msg symbol : String) : Dict :=
  [("error", Val.str msg), ("symbol", Val.str symbol)]

/-- Conversion of one `ticker.history` row (yahoo_client.py:100-108):
`float(row['Open'])` etc. raise on a non-numeric cell, failing the call. -/
def yahooRowToPoint (row : Dict) : Option Dict := do
  let ts ← dget row "timestamp"
  let o ← (dget row "Open").bind pyFloat?
  let hi ← (dget row "High").bind pyFloat?
  let lo ← (dget row "Low").bind pyFloat?
  let cl ← (dget row "Close").bind pyFloat?
  let vo ← (dget row "Volume").bind pyFloat?
  pure [("timestamp", ts), ("open", Val.num o), ("high", Val.num hi),
        ("low", Val.num lo), ("close", Val.num cl),
        ("volume", Val.num (ratTrunc vo))]

/-- `YahooFinanceClient.get_historical_data` (yahoo_client.py:75-122).
`hist` is the oracle for `ticker.history(period, interval)` — the network
call — and the second component counts the data requests issued. Period and
interval are validated BEFORE the call; a `ValueError` lands in the handler
as an error payload. -/
def yahooGetHistoricalData (hist : List Dict) (symbol period interval : String) :
    Dict × Nat :=
  if !validatePeriod period then
    (adapterErrorPayload ("Invalid period: " ++ period) symbol, 0)
  else if !validateInterval interval then
    (adapterErrorPayload ("Invalid interval: " ++ interval) symbol, 0)
  else if hist.isEmpty then
    (adapterErrorPayload ("No historical data available for " ++ symbol) symbol, 1)
  else
    match hist.mapM yahooRowToPoint with
    | some pts =>
      ([("symbol", Val.str symbol),
        ("normalized_symbol", Val.str (symStr (yahooNormalizeSymbol (codes symbol)))),
        ("period", Val.str period), ("interval", Val.str interval),
        ("data", Val.arr (pts.map Val.obj)),
        ("count", Val.num pts.length), ("source", Val.str "yahoo_finance")], 1)
    | none => (adapterErrorPayload "conversion error" symbol, 1)

/-- One `grapthData` item of the NSE chart payload
(nse_client.py:356-360): `item[0]` and `float(item[1])`. -/
def nseParseItem : Val → Option Val
  | .arr (t :: v :: _) =>
    match pyFloat? v with
    | some q => some (Val.obj [("timestamp", t), ("price", Val.num q)])
    | none => none
  | _ => none

/-- `NSEClient._parse_historical_data` (nse_client.py:349-374); a parse
exception becomes an error payload. -/
def nseParseHistoricalData (d : Val) (symbol period interval : String) : Dict :=
  match d with
  | .obj dd =>
    match dgetD dd "grapthData" (Val.arr []) with
    | .arr items =>
      match items.mapM nseParseItem with
      | some pts =>
        [("symbol", Val.str symbol), ("period", Val.str period),
         ("interval", Val.str interval), ("data", Val.arr pts),
         ("count", Val.num pts.length), ("source", Val.str "nse"),
         ("note", Val.str "NSE provides limited historical data")]
      | none => [("error", Val.str "parse error")]
    | _ => [("error", Val.str "parse error")]
  | _ => [("error", Val.str "parse error")]

/-- `NSEClient.get_historical_data` (nse_client.py:92-119): NO validation of
`period`/`interval` — both are passed through as metadata; the chart-API
request (`resp` oracle, `none` = non-200/failure) is always issued, so the
call count is always 1. -/
def nseGetHistoricalData (resp : Option Val) (symbol period interval : String) :
    Dict × Nat :=
  match resp with
  | some d => (nseParseHistoricalData d symbol period interval, 1)
  | none =>
    (adapterErrorPayload ("No historical data available for " ++ symbol) symbol, 1)

/-- C8 counterexample: the exchange-scraper (NSE) adapter does NOT validate
`period` — with the invalid period `"banana"` it still issues the network
request (count 1, not 0) and can even return a NON-error payload that simply
echoes the invalid period. -/
theorem C8_historical_validation_counterexample :
    validatePeriod "banana" = false ∧
    (nseGetHistoricalData
        (some (Val.obj [("grapthData", Val.arr [Val.arr [Val.num 1, Val.num 2]])]))
        "TCS" "banana" "1d").2 = 1 ∧
    hasError (nseGetHistoricalData
        (some (Val.obj [("grapthData", Val.arr [Val.arr [Val.num 1, Val.num 2]])]))
        "TCS" "banana" "1d").1 = false := by
  refine ⟨rfl, rfl, rfl⟩

/-- C8 amended: only the library-backed (Yahoo) adapter validates period and
interval against the allow-lists before any network call — an invalid value
short-circuits to an error payload with zero network requests; the NSE
adapter performs no such validation and always issues exactly one data
request, whatever the period and interval. -/
theorem C8_historical_validation_amended :
    (∀ (hist : List Dict) (symbol period interval : String),
      validatePeriod period = false →
      hasError (yahooGetHistoricalData hist symbol period interval).1 = true ∧
      (yahooGetHistoricalData hist symbol period interval).2 = 0) ∧
    (∀ (hist : List Dict) (symbol period interval : String),
      validateInterval interval = false →
      hasError (yahooGetHistoricalData hist symbol period interval).1 = true ∧
      (yahooGetHistoricalData hist symbol period interval).2 = 0) ∧
    (∀ (resp : Option Val) (symbol period interval : String),
      (nseGetHistoricalData resp symbol period interval).2 = 1) := by
  refine ⟨fun hist symbol period interval h => ?_, fun hist symbol period interval h => ?_,
    fun resp symbol period interval => ?_⟩
  · simp [yahooGetHistoricalData, h, adapterErrorPayload, hasError, hasKey, dget]
  · by_cases hp : validatePeriod period = true
    · simp [yahooGetHistoricalData, hp, h, adapterErrorPayload, hasError, hasKey, dget]
    · simp [yahooGetHistoricalData, Bool.eq_false_iff.mpr hp, adapterErrorPayload,
        hasError, hasKey, dget]
  · rcases resp with _ | d <;> rfl

/-- Witness for C8 amended: the Yahoo adapter rejects the period `"banana"`
without a network call, and the NSE adapter issues its single request even
for that period. -/
theorem C8_historical_validation_amended_witness :
    hasError (yahooGetHistoricalData [] "TCS" "banana" "1d").1 = true ∧
    (yahooGetHistoricalData [] "TCS" "banana" "1d").2 = 0 ∧
    (nseGetHistoricalData none "TCS" "banana" "1d").2 = 1 := by
  refine ⟨(C8_historical_validation_amended.1 [] "TCS" "banana" "1d" rfl).1,
    (C8_historical_validation_amended.1 [] "TCS" "banana" "1d" rfl).2,
    C8_historical_validation_amended.2.2 none "TCS" "banana" "1d"⟩

end FinGuide
